import Mathlib

/-!
Verification of the action execution engine of q-deck-launcher.

The definitions below are a shallow embedding of
`src-tauri/src/modules/action.rs` (environment-variable expansion, the
Open executor's path normalization and fallback policy, the Terminal
executor's dispatch, the MultiAction composite loop, and the Dispatcher's
executor selection) together with the duplicated path normalization in
`src-tauri/src/modules/drag_drop.rs` (`create_open_config`).

Platform primitives consumed by the code (spec section 6: filesystem
existence checks, `ShellExecuteW`, `std::env::var`, the current working
directory, `Path::is_absolute`, `PathBuf::join`) are modelled as explicit
parameters or as small concrete functions mirroring their Windows
semantics.  Machine work that is pure in the source (string rewriting,
branching, result construction) is translated directly; wall-clock timing
is outside the embedding and the corresponding `execution_time_ms` fields
are fixed at 0.
-/

namespace QDeck

/-- Model of `ActionResult` (action.rs lines 22-29). -/
structure ActionResult where
  success : Bool
  message : String
  execution_time_ms : Nat
  output : Option String
  error_code : Option Int
deriving Repr, DecidableEq

/-- Model of the `ActionConfig` tagged union (action.rs lines 32-67).
`open` and `PowerShell` are renamed to avoid Lean keywords; the payloads
are kept.  Environment maps are modelled as association lists. -/
inductive ActionConfig where
  | launchApp (path : String) (args : Option (List String))
      (workdir : Option String) (env : Option (List (String × String)))
  | openAction (target : String) (verb : Option String)
  | terminalAction (terminal : String) (profile : Option String)
      (workdir : Option String) (command : Option String)
      (env : Option (List (String × String))) (args : Option (List String))
  | sendKeys (keys : String) (delay_ms : Option Nat)
  | powerShellAction (script : String) (workdir : Option String)
      (execution_policy : Option String)
  | multiAction (actions : List ActionConfig) (delay_between_ms : Option Nat)
      (stop_on_error : Option Bool)

/-! ## Environment variable expansion (action.rs lines 734-753)

The Rust loop works on byte indices of a UTF-8 string; on the `%`-framed
ASCII tokens it manipulates these coincide with character indices, so the
string is modelled as a `List Char`.  `std::env::var` is modelled as an
`env : String → Option String` parameter (`Ok`/`Err` become
`some`/`none`).  The `while` loop has no termination argument in the
source, so it is embedded with explicit fuel: `none` means the loop has
not finished within the given number of iterations. -/

/-- Model of `str::find('%')`: index of the first `%`, if any. -/
def findPercent : List Char → Option Nat
  | [] => none
  | c :: rest =>
    if c == '%' then some 0 else (findPercent rest).map (fun i => i + 1)

/-- One scan of the loop body's token search: the position `start` of the
first `%`, the offset `e` of the next `%` within `s.drop (start+1)`, and
the variable name between them (action.rs lines 738-740). -/
def findToken (s : List Char) : Option (Nat × Nat × List Char) :=
  match findPercent s with
  | none => none
  | some start =>
    match findPercent (s.drop (start + 1)) with
    | none => none
    | some e => some (start, e, (s.drop (start + 1)).take e)

/-- The `while` loop of `expand_environment_variables`, with fuel.  A
resolvable token `%name%` is spliced out and replaced by the variable's
value (`replace_range(start..start + end + 2, ..)`), and the whole string
is rescanned; a missing first or second `%`, or an unset variable, ends
the loop and returns the current string. -/
def expandLoop (env : String → Option String) : Nat → List Char → Option (List Char)
  | 0, _ => none
  | fuel + 1, s =>
    match findToken s with
    | none => some s
    | some (start, e, name) =>
      match env (String.mk name) with
      | some v => expandLoop env fuel (s.take start ++ v.data ++ s.drop (start + e + 2))
      | none => some s

/-- The expansion loop reaches a result within some fuel bound. -/
def ExpandTerminates (env : String → Option String) (s : List Char) : Prop :=
  ∃ fuel, (expandLoop env fuel s).isSome = true

/-! ## Path normalization (action.rs lines 206-225, drag_drop.rs lines 568-597) -/

/-- Model of `Path::is_absolute` on Windows: a drive-rooted path
(`C:\` or `C:/`) or a UNC/verbatim path (leading `\\`). -/
def isAbsolutePath (s : List Char) : Bool :=
  match s with
  | a :: b :: c :: _ =>
    (a == '\\' && b == '\\') || (a.isAlpha && b == ':' && (c == '\\' || c == '/'))
  | [a, b] => a == '\\' && b == '\\'
  | _ => false

/-- Windows path separators. -/
def isSepChar (c : Char) : Bool := c == '\\' || c == '/'

/-- Model of `PathBuf::join` (via `push`) for a relative right operand: a
`\` separator is inserted unless the left side is empty or already ends
in a separator. -/
def joinPath (d t : List Char) : List Char :=
  match d.getLast? with
  | none => t
  | some c => if isSepChar c then d ++ t else d ++ '\\' :: t

/-- The Open executor's path normalization (action.rs lines 206-225):
an absolute expanded target is used as-is; a relative one is joined onto
the current working directory; if the current directory cannot be read
(`cwd = none`), the original relative path is returned unchanged. -/
def normalizeOpenTarget (cwd : Option (List Char)) (t : List Char) : List Char :=
  if isAbsolutePath t then t
  else
    match cwd with
    | some d => joinPath d t
    | none => t

/-- The duplicated normalization in `create_open_config`
(drag_drop.rs lines 568-597): identical branch structure, except that a
failure to read the current directory is propagated as an error
(`.context(..)?`) instead of falling back to the original path. -/
def createOpenConfigPath (cwd : Option (List Char)) (p : List Char) :
    Except String (List Char) :=
  if isAbsolutePath p then Except.ok p
  else
    match cwd with
    | some d => Except.ok (joinPath d p)
    | none => Except.error "Failed to get current directory"

/-! ## Open executor decision logic (action.rs lines 192-385)

Everything after variable expansion is modelled.  The filesystem checks
(`Path::exists`, `is_dir`, `is_file`), the `ShellExecuteW` call (returning
its numeric HINSTANCE status: values above 32 mean success) and the
Notepad fallback `ShellExecuteW` call are parameters.  `target` is the
raw configured target (used in messages), `expandedTarget` the result of
environment expansion (used for path work). -/

/-- Quoting condition (action.rs line 253): spaces or parentheses. -/
def needsQuoting (p : List Char) : Bool :=
  p.any (fun c => c == ' ' || c == '(' || c == ')')

/-- Model of the shell-level quoting (action.rs lines 253-257). -/
def quoteTarget (p : List Char) : List Char :=
  if needsQuoting p then '"' :: (p ++ ['"']) else p

/-- Verb override (action.rs lines 234-247): an existing directory forces
the `explore` verb; otherwise the requested verb is kept, whether or not
the target exists. -/
def openFinalVerb (fsExists fsIsDir : List Char → Bool)
    (absoluteTarget : List Char) (verbStr : String) : String :=
  if fsExists absoluteTarget then
    (if fsIsDir absoluteTarget then "explore" else verbStr)
  else verbStr

/-- The status returned by the first `ShellExecuteW` call, as a function
of the chosen verb and the quoted normalized target. -/
def openShellCode (fsExists fsIsDir : List Char → Bool)
    (shellExecute : String → List Char → Int)
    (cwd : Option (List Char)) (expandedTarget : List Char)
    (verb : Option String) : Int :=
  shellExecute
    (openFinalVerb fsExists fsIsDir (normalizeOpenTarget cwd expandedTarget)
      (verb.getD "open"))
    (quoteTarget (normalizeOpenTarget cwd expandedTarget))

/-- The executor's result together with whether the Notepad fallback
`ShellExecuteW` call was made. -/
structure OpenOutcome where
  result : ActionResult
  usedFallback : Bool
deriving Repr, DecidableEq

/-- The Open executor after variable expansion (action.rs lines 205-363):
normalize the target, pick the verb, quote, call `ShellExecuteW`,
interpret the status (`> 32` success), and on status 2 retry through
Notepad only when the target exists and is a regular file; a nonexistent
target yields the does-not-exist failure, any other low status the
system-error failure.  Wall-clock timing is not modelled. -/
def openExecuteCore (fsExists fsIsDir fsIsFile : List Char → Bool)
    (shellExecute : String → List Char → Int) (notepadOpen : List Char → Int)
    (cwd : Option (List Char)) (target : String) (expandedTarget : List Char)
    (verb : Option String) : OpenOutcome :=
  let finalTarget := normalizeOpenTarget cwd expandedTarget
  let code := openShellCode fsExists fsIsDir shellExecute cwd expandedTarget verb
  if 32 < code then
    { result := { success := true, message := "Opened \x27" ++ target ++ "\x27 successfully",
                  execution_time_ms := 0, output := none, error_code := none },
      usedFallback := false }
  else if code == 2 then
    if fsExists finalTarget && fsIsFile finalTarget then
      let fallbackCode := notepadOpen finalTarget
      if 32 < fallbackCode then
        { result := { success := true, message := "Opened \x27" ++ target ++ "\x27 with Notepad",
                      execution_time_ms := 0, output := none, error_code := none },
          usedFallback := true }
      else
        { result := { success := false,
                      message := "Failed to open \x27" ++ target ++
                        "\x27: No default program and Notepad fallback failed",
                      execution_time_ms := 0, output := none, error_code := some code },
          usedFallback := true }
    else
      { result := { success := false,
                    message := "File \x27" ++ target ++ "\x27 does not exist",
                    execution_time_ms := 0, output := none, error_code := some code },
        usedFallback := false }
  else
    { result := { success := false,
                  message := "Failed to open \x27" ++ target ++ "\x27: System error " ++ toString code,
                  execution_time_ms := 0, output := none, error_code := some code },
      usedFallback := false }

/-! ## Terminal executor dispatch (action.rs lines 395-502) -/

/-- The four supported terminal families. -/
inductive TerminalKind where
  | windowsTerminal
  | powershellHost
  | cmdHost
  | wslHost
deriving Repr, DecidableEq

/-- Model of the `match terminal.as_str()` scrutinee (action.rs lines
398-502): exact string comparison against each family name and its one
short alias, in source order. -/
def matchTerminal (t : String) : Option TerminalKind :=
  if t == "WindowsTerminal" || t == "wt" then some TerminalKind.windowsTerminal
  else if t == "PowerShell" || t == "pwsh" then some TerminalKind.powershellHost
  else if t == "Cmd" || t == "cmd" then some TerminalKind.cmdHost
  else if t == "WSL" || t == "wsl" then some TerminalKind.wslHost
  else none

/-- The strings accepted by `matchTerminal`. -/
def supportedTerminalNames : List String :=
  ["WindowsTerminal", "wt", "PowerShell", "pwsh", "Cmd", "cmd", "WSL", "wsl"]

/-- The failure result of the wildcard arm (action.rs lines 493-501). -/
def terminalUnsupportedResult (terminal : String) : ActionResult :=
  { success := false, message := "Unsupported terminal type: " ++ terminal,
    execution_time_ms := 0, output := none, error_code := none }

/-- What the terminal executor's dispatch does with the `terminal` field:
a matched family proceeds to the family-specific command build, anything
else returns the unsupported-terminal failure result immediately. -/
def terminalDispatchOutcome (terminal : String) : TerminalKind ⊕ ActionResult :=
  match matchTerminal terminal with
  | some k => Sum.inl k
  | none => Sum.inr (terminalUnsupportedResult terminal)

/-! ## Dispatcher (action.rs lines 696-728) -/

/-- Model of `LaunchAppActionExecutor::supports_action_type`. -/
def supportsLaunchApp : ActionConfig → Bool
  | ActionConfig.launchApp .. => true
  | _ => false

/-- Model of `OpenActionExecutor::supports_action_type`. -/
def supportsOpen : ActionConfig → Bool
  | ActionConfig.openAction .. => true
  | _ => false

/-- Model of `TerminalActionExecutor::supports_action_type`. -/
def supportsTerminal : ActionConfig → Bool
  | ActionConfig.terminalAction .. => true
  | _ => false

/-- Model of `MultiActionExecutor::supports_action_type`. -/
def supportsMultiAction : ActionConfig → Bool
  | ActionConfig.multiAction .. => true
  | _ => false

/-- The executor selected by `ActionRunner::execute_action_config`. -/
inductive ExecutorChoice where
  | launcher
  | opener
  | terminalHost
  | multiComposite
deriving Repr, DecidableEq

/-- Executor selection in `ActionRunner::execute_action_config`
(action.rs lines 711-728): registered executors are tried in registration
order (LaunchApp, Open, Terminal), then the MultiAction special case,
then the `No executor found` error. -/
def findExecutor (c : ActionConfig) : Except String ExecutorChoice :=
  if supportsLaunchApp c then Except.ok ExecutorChoice.launcher
  else if supportsOpen c then Except.ok ExecutorChoice.opener
  else if supportsTerminal c then Except.ok ExecutorChoice.terminalHost
  else if supportsMultiAction c then Except.ok ExecutorChoice.multiComposite
  else Except.error "No executor found for action type"

/-! ## MultiAction composite executor (action.rs lines 606-689)

The recursive dispatch of each sub-action performs I/O in the source, so
it is a parameter `dispatch : ActionConfig → Except String ActionResult`
(`Result<ActionResult>` of `execute_action_config`).  The inter-step
`sleep` is recorded as the number of milliseconds slept, and the
`serde_json` serialization of the child results is kept as the plain
list `results`. -/

/-- The result recorded for one step: the child's `ActionResult` on `Ok`,
or the synthesized zero-time failure on a dispatch error
(action.rs lines 622-649). -/
def multiStepResult (step : Except String ActionResult) (index : Nat) : ActionResult :=
  match step with
  | Except.ok r => r
  | Except.error e =>
    { success := false, message := "Step " ++ toString (index + 1) ++ " error: " ++ e,
      execution_time_ms := 0, output := none, error_code := none }

/-- The `for (index, action)` loop (action.rs lines 619-663), returning
(recorded results, aggregate success, milliseconds slept between steps).
A failing step with `stop_on_error` breaks out before the delay; the
delay runs only when `index < actions.len() - 1` and the delay is
positive. -/
def multiLoop (dispatch : ActionConfig → Except String ActionResult)
    (total delayMs : Nat) (stopOnError : Bool) :
    List ActionConfig → Nat → List ActionResult × Bool × Nat
  | [], _ => ([], true, 0)
  | act :: rest, index =>
    let r := multiStepResult (dispatch act) index
    if !r.success && stopOnError then
      ([r], false, 0)
    else
      let d : Nat := if index < total - 1 ∧ 0 < delayMs then delayMs else 0
      let next := multiLoop dispatch total delayMs stopOnError rest (index + 1)
      (r :: next.1, r.success && next.2.1, d + next.2.2)

/-- The aggregate the composite executor returns: `success`, the
`"Multi-action: N/M steps successful"` message, the recorded child
results (serialized into `output` in the source), and the total
inter-step delay. -/
structure MultiOutcome where
  success : Bool
  message : String
  results : List ActionResult
  totalDelayMs : Nat
deriving Repr, DecidableEq

/-- `MultiActionExecutor::execute` (action.rs lines 608-684): defaults
`delay_between_ms = 100` and `stop_on_error = true`, runs the loop, and
aggregates. -/
def multiExecute (dispatch : ActionConfig → Except String ActionResult)
    (actions : List ActionConfig) (delay_between_ms : Option Nat)
    (stop_on_error : Option Bool) : MultiOutcome :=
  let delayMs := delay_between_ms.getD 100
  let stop := stop_on_error.getD true
  let out := multiLoop dispatch actions.length delayMs stop actions 0
  { success := out.2.1
    message := "Multi-action: " ++ toString (out.1.filter (fun r => r.success)).length ++
      "/" ++ toString out.1.length ++ " steps successful"
    results := out.1
    totalDelayMs := out.2.2 }

/-! ## Auxiliary notions and concrete instances used in the statements -/

/-- `tokenMatches t s`: `t` is an initial run of `s`. -/
def tokenMatches : List Char → List Char → Bool
  | [], _ => true
  | _ :: _, [] => false
  | a :: ta, b :: sb => a == b && tokenMatches ta sb

/-- `hasSub s t`: `t` occurs contiguously inside `s` (the sense in which
a `%VAR%` token "appears verbatim" in a string). -/
def hasSub (s t : List Char) : Bool :=
  match s with
  | [] => t.isEmpty
  | x :: rest => tokenMatches t (x :: rest) || hasSub rest t

/-- Environment with `A = "%"` and `D = "hello"`, everything else unset. -/
def envC7 : String → Option String := fun n =>
  if n == "A" then some "%" else if n == "D" then some "hello" else none

/-- Environment with the self-referential value `A = "%A%"`. -/
def envC9 : String → Option String := fun n =>
  if n == "A" then some "%A%" else none

/-- Environment with only `B` set. -/
def envC10 : String → Option String := fun n =>
  if n == "B" then some "bee" else none

/-- A successful child result. -/
def okResultW : ActionResult :=
  { success := true, message := "ok", execution_time_ms := 0,
    output := none, error_code := none }

/-- A failed child result. -/
def failResultW : ActionResult :=
  { success := false, message := "fail", execution_time_ms := 0,
    output := none, error_code := none }

/-- A concrete dispatcher: the sub-action tagged `"b"` fails, everything
else succeeds. -/
def dispatchW : ActionConfig → Except String ActionResult := fun c =>
  match c with
  | ActionConfig.sendKeys "b" _ => Except.ok failResultW
  | _ => Except.ok okResultW

/-! ## General lemmas about the embedding -/

/-- A hit of `findPercent` splits the string at its first `%`. -/
theorem findPercent_spec (s : List Char) (i : Nat) (h : findPercent s = some i) :
    ∃ t u, s = t ++ '%' :: u ∧ t.length = i ∧ t.count '%' = 0 := by
  induction s generalizing i with
  | nil => simp [findPercent] at h
  | cons c rest ih =>
    by_cases hc : c == '%'
    · simp [findPercent, hc] at h
      exact ⟨[], rest, by simp [eq_of_beq hc], by simp [h], rfl⟩
    · simp [findPercent, hc] at h
      obtain ⟨j, hj, rfl⟩ := h
      obtain ⟨t, u, rfl, hl, hcount⟩ := ih j hj
      exact ⟨c :: t, u, rfl, by simp [hl], by simp [List.count_cons, hcount, hc]⟩

/-- A hit of `findToken` exhibits the `%name%` token in place, together
with the `take`/`drop` decomposition the rewrite step uses. -/
theorem findToken_spec (s : List Char) (start e : Nat) (name : List Char)
    (h : findToken s = some (start, e, name)) :
    ∃ t u, s = t ++ '%' :: (name ++ '%' :: u) ∧ t.length = start ∧
      name.length = e ∧ t.count '%' = 0 ∧ name.count '%' = 0 ∧
      s.take start = t ∧ s.drop (start + e + 2) = u := by
  unfold findToken at h
  split at h
  · exact absurd h (by simp)
  · rename_i st h1
    split at h
    · exact absurd h (by simp)
    · rename_i e2 h2
      obtain ⟨rfl, rfl, rfl⟩ : st = start ∧ e2 = e ∧ (s.drop (st + 1)).take e2 = name := by
        simpa using h
      obtain ⟨t, u1, hs, hlt, hct⟩ := findPercent_spec s st h1
      have hdrop1 : s.drop (st + 1) = u1 := by
        rw [hs, show st + 1 = (t ++ ['%']).length by simp [hlt]]
        rw [show t ++ '%' :: u1 = (t ++ ['%']) ++ u1 by simp]
        exact List.drop_left _ _
      obtain ⟨t2, u2, hu1, hlt2, hct2⟩ := findPercent_spec _ e2 (hdrop1 ▸ h2)
      have hname : (s.drop (st + 1)).take e2 = t2 := by
        rw [hdrop1, hu1, ← hlt2]
        exact List.take_left _ _
      refine ⟨t, u2, ?_, hlt, ?_, hct, ?_, ?_, ?_⟩
      · rw [hname, hs, hu1]
      · rw [hname]; exact hlt2
      · rw [hname]; exact hct2
      · rw [hs, ← hlt]
        exact List.take_left _ _
      · rw [hs, hu1]
        rw [show t ++ '%' :: (t2 ++ '%' :: u2) = (t ++ '%' :: t2 ++ ['%']) ++ u2 by simp]
        rw [show st + e2 + 2 = (t ++ '%' :: t2 ++ ['%']).length by
          simp [hlt, hlt2]; omega]
        exact List.drop_left _ _

/-- A string holding a token holds at least two `%` characters. -/
theorem findToken_count_ge (s : List Char) (start e : Nat) (name : List Char)
    (h : findToken s = some (start, e, name)) : 2 ≤ s.count '%' := by
  obtain ⟨t, u, rfl, -, -, ht, hn, -, -⟩ := findToken_spec s start e name h
  simp [List.count_append, List.count_cons, ht, hn]

/-- The fueled loop is deterministic in the fuel: once it finishes, more
fuel gives the same answer. -/
theorem expandLoop_mono (env : String → Option String) :
    ∀ fuel fuel2 s r, expandLoop env fuel s = some r → fuel ≤ fuel2 →
      expandLoop env fuel2 s = some r := by
  intro fuel
  induction fuel with
  | zero => intro fuel2 s r h _; simp [expandLoop] at h
  | succ m ih =>
    intro fuel2 s r h hle
    cases fuel2 with
    | zero => omega
    | succ k =>
      cases hft : findToken s with
      | none => simp only [expandLoop, hft] at h ⊢; exact h
      | some tup =>
        obtain ⟨st, e, nm⟩ := tup
        cases he : env (String.mk nm) with
        | none => simp only [expandLoop, hft, he] at h ⊢; exact h
        | some v =>
          simp only [expandLoop, hft, he] at h ⊢
          exact ih k _ r h (by omega)

/-- When no set variable's value holds a `%`, each substitution removes
exactly two `%` characters, so the loop finishes within any fuel bound
exceeding half the `%` count. -/
theorem expandLoop_isSome_of_count (env : String → Option String)
    (henv : ∀ n v, env n = some v → v.data.count '%' = 0) :
    ∀ fuel s, s.count '%' < 2 * fuel → (expandLoop env fuel s).isSome = true := by
  intro fuel
  induction fuel with
  | zero => intro s h; omega
  | succ m ih =>
    intro s h
    cases hft : findToken s with
    | none => simp [expandLoop, hft]
    | some tup =>
      obtain ⟨st, e, nm⟩ := tup
      cases he : env (String.mk nm) with
      | none => simp [expandLoop, hft, he]
      | some v =>
        simp only [expandLoop, hft, he]
        apply ih
        obtain ⟨t, u, hs, hlt, hle, ht, hn, htake, hdrop⟩ :=
          findToken_spec s st e nm hft
        have hv := henv _ _ he
        have hcount : s.count '%' = 2 + u.count '%' := by
          rw [hs]; simp [List.count_append, List.count_cons, ht, hn]; omega
        rw [htake, hdrop, List.count_append, List.count_append, ht, hv]
        omega

/-- Appending anything to an absolute path keeps it absolute. -/
theorem isAbsolutePath_append (d l : List Char) (h : isAbsolutePath d = true) :
    isAbsolutePath (d ++ l) = true := by
  match d with
  | [] => simp [isAbsolutePath] at h
  | [a] => simp [isAbsolutePath] at h
  | [a, b] =>
    cases l with
    | nil => simpa using h
    | cons c r =>
      simp only [isAbsolutePath] at h
      simp [isAbsolutePath, List.cons_append, h]
  | a :: b :: c :: rest =>
    simp only [isAbsolutePath] at h
    simpa [isAbsolutePath, List.cons_append] using h

/-! ## Claims -/

/-- C1: for every target `t` that is absolute, the Open executor's path
normalization returns exactly `t`, byte-for-byte, for every current
working directory (including an unreadable one), and the duplicated
normalization in drag-drop's `create_open_config` does the same. -/
theorem open_normalize_absolute_identity (cwd : Option (List Char))
    (t : List Char) (h : isAbsolutePath t = true) :
    normalizeOpenTarget cwd t = t ∧ createOpenConfigPath cwd t = Except.ok t := by
  constructor <;> simp [normalizeOpenTarget, createOpenConfigPath, h]

/-- C1 (witness): the round trip at `C:\Users\x\file.png` under the
working directory `D:\other\cwd`. -/
theorem open_normalize_absolute_identity_witness :
    isAbsolutePath "C:\\Users\\x\\file.png".data = true ∧
    normalizeOpenTarget (some "D:\\other\\cwd".data) "C:\\Users\\x\\file.png".data
      = "C:\\Users\\x\\file.png".data ∧
    createOpenConfigPath (some "D:\\other\\cwd".data) "C:\\Users\\x\\file.png".data
      = Except.ok "C:\\Users\\x\\file.png".data := by
  have h := open_normalize_absolute_identity (some "D:\\other\\cwd".data)
    "C:\\Users\\x\\file.png".data (by decide)
  exact ⟨by decide, h.1, h.2⟩

/-- C3: for every non-absolute target `t` and readable current working
directory `d` (absolute, as the platform guarantees), the Open executor's
normalization yields `join d t`, and the result is absolute. -/
theorem open_normalize_relative_join (d t : List Char)
    (ht : isAbsolutePath t = false) (hd : isAbsolutePath d = true) :
    normalizeOpenTarget (some d) t = joinPath d t ∧
    isAbsolutePath (normalizeOpenTarget (some d) t) = true := by
  have h1 : normalizeOpenTarget (some d) t = joinPath d t := by
    simp [normalizeOpenTarget, ht]
  refine ⟨h1, ?_⟩
  rw [h1]
  unfold joinPath
  cases hg : d.getLast? with
  | none =>
    have hnil : d = [] := by
      cases d with
      | nil => rfl
      | cons a r => simp [List.getLast?] at hg
    rw [hnil] at hd
    simp [isAbsolutePath] at hd
  | some c =>
    by_cases hs : isSepChar c
    · simp only [hs, if_true]
      exact isAbsolutePath_append d t hd
    · simp only [hs, if_false]
      exact isAbsolutePath_append d ('\\' :: t) hd

/-- C3 (witness): `notes.txt` under working directory `C:\home\u\proj`. -/
theorem open_normalize_relative_join_witness :
    normalizeOpenTarget (some "C:\\home\\u\\proj".data) "notes.txt".data
      = joinPath "C:\\home\\u\\proj".data "notes.txt".data ∧
    isAbsolutePath
      (normalizeOpenTarget (some "C:\\home\\u\\proj".data) "notes.txt".data) = true :=
  open_normalize_relative_join "C:\\home\\u\\proj".data "notes.txt".data
    (by decide) (by decide)

/-- C2: a MultiAction whose sub-dispatches produce success, failure,
anything, with `stop_on_error` absent (default true) or `true`, attempts
exactly the first two steps (the third sub-action's dispatch result is
irrelevant and absent from the recorded results), aggregates
`success = false`, and reports `1/2 steps successful`. -/
theorem multi_stop_on_error_two_steps
    (dispatch : ActionConfig → Except String ActionResult)
    (a b c : ActionConfig) (r1 r2 : ActionResult)
    (delayMs : Option Nat) (so : Option Bool)
    (ha : dispatch a = Except.ok r1) (h1 : r1.success = true)
    (hb : dispatch b = Except.ok r2) (h2 : r2.success = false)
    (hso : so.getD true = true) :
    (multiExecute dispatch [a, b, c] delayMs so).results = [r1, r2] ∧
    (multiExecute dispatch [a, b, c] delayMs so).success = false ∧
    (multiExecute dispatch [a, b, c] delayMs so).message
      = "Multi-action: 1/2 steps successful" := by
  have e1 : multiStepResult (dispatch a) 0 = r1 := by rw [ha]; rfl
  have e2 : multiStepResult (dispatch b) 1 = r2 := by rw [hb]; rfl
  have key : (multiLoop dispatch 3 (delayMs.getD 100) true [a, b, c] 0).1 = [r1, r2]
      ∧ (multiLoop dispatch 3 (delayMs.getD 100) true [a, b, c] 0).2.1 = false := by
    simp [multiLoop, e1, e2, h1, h2]
  refine ⟨?_, ?_, ?_⟩
  · simp [multiExecute, hso, key.1]
  · simp [multiExecute, hso, key.2]
  · simp [multiExecute, hso, key.1, key.2, h1, h2]
    rfl

/-- C2 (witness): the concrete dispatcher `dispatchW` on the three
`SendKeys` placeholders `a`, `b`, `c` with both options absent. -/
theorem multi_stop_on_error_two_steps_witness :
    (multiExecute dispatchW
        [ActionConfig.sendKeys "a" none, ActionConfig.sendKeys "b" none,
          ActionConfig.sendKeys "c" none] none none).results = [okResultW, failResultW] ∧
    (multiExecute dispatchW
        [ActionConfig.sendKeys "a" none, ActionConfig.sendKeys "b" none,
          ActionConfig.sendKeys "c" none] none none).success = false ∧
    (multiExecute dispatchW
        [ActionConfig.sendKeys "a" none, ActionConfig.sendKeys "b" none,
          ActionConfig.sendKeys "c" none] none none).message
      = "Multi-action: 1/2 steps successful" :=
  multi_stop_on_error_two_steps dispatchW _ _ _ okResultW failResultW none none
    rfl rfl rfl rfl rfl

/-- C4: a MultiAction with an empty list of sub-actions attempts zero
steps, sleeps for zero milliseconds, succeeds, and reports
`0/0 steps successful` -- for every dispatcher and options. -/
theorem multi_empty_actions (dispatch : ActionConfig → Except String ActionResult)
    (dm : Option Nat) (so : Option Bool) :
    multiExecute dispatch [] dm so
      = { success := true, message := "Multi-action: 0/0 steps successful",
          results := [], totalDelayMs := 0 } := by
  simp only [multiExecute, multiLoop]
  rfl

/-- C5 (counterexample): the dispatch on the `terminal` field is not
case-insensitive: the casings `POWERSHELL` and `Wt` of supported families
fall through to the unsupported-terminal failure branch. -/
theorem terminal_match_case_sensitive_cex :
    matchTerminal "POWERSHELL" = none ∧ matchTerminal "Wt" = none ∧
    terminalDispatchOutcome "POWERSHELL"
      = Sum.inr (terminalUnsupportedResult "POWERSHELL") := by
  exact ⟨by decide, by decide, by decide⟩

/-- C5 (amended): the dispatch is an exact, case-sensitive match against
each family name and its one short alias; exactly the eight listed
spellings select a family, every other string (including other casings)
falls through to the unsupported-terminal failure. -/
theorem terminal_match_exact_aliases (s : String) :
    ((matchTerminal s).isSome = supportedTerminalNames.contains s) ∧
    matchTerminal "WindowsTerminal" = some TerminalKind.windowsTerminal ∧
    matchTerminal "wt" = some TerminalKind.windowsTerminal ∧
    matchTerminal "PowerShell" = some TerminalKind.powershellHost ∧
    matchTerminal "pwsh" = some TerminalKind.powershellHost ∧
    matchTerminal "Cmd" = some TerminalKind.cmdHost ∧
    matchTerminal "cmd" = some TerminalKind.cmdHost ∧
    matchTerminal "WSL" = some TerminalKind.wslHost ∧
    matchTerminal "wsl" = some TerminalKind.wslHost := by
  refine ⟨?_, by decide, by decide, by decide, by decide, by decide, by decide,
    by decide, by decide⟩
  simp only [matchTerminal, supportedTerminalNames, List.contains_cons,
    List.contains_nil]
  split_ifs with hc1 hc2 hc3 hc4 <;> simp_all <;> tauto

/-- C6 (counterexample): an Open action whose normalized target does not
exist does not fail immediately with a does-not-exist message: the shell
invocation is still attempted, and a status above 32 makes the execution
report success. -/
theorem open_nonexistent_cex :
    (openExecuteCore (fun _ => false) (fun _ => false) (fun _ => false)
        (fun _ _ => 33) (fun _ => 0) none "C:\\missing.txt"
        "C:\\missing.txt".data none).result.success = true ∧
    (openExecuteCore (fun _ => false) (fun _ => false) (fun _ => false)
        (fun _ _ => 33) (fun _ => 0) none "C:\\missing.txt"
        "C:\\missing.txt".data none).result.message
      = "Opened \x27C:\\missing.txt\x27 successfully" := by
  exact ⟨by decide, by decide⟩

/-- C6 (amended): when the normalized target does not exist the shell
invocation is still attempted and the Notepad fallback is never invoked;
the execution succeeds exactly when the shell status exceeds 32, and the
does-not-exist failure (with error code 2) is produced exactly on shell
status 2. -/
theorem open_nonexistent_no_fallback
    (fsExists fsIsDir fsIsFile : List Char → Bool)
    (shellExecute : String → List Char → Int) (notepadOpen : List Char → Int)
    (cwd : Option (List Char)) (target : String) (expandedTarget : List Char)
    (verb : Option String)
    (h : fsExists (normalizeOpenTarget cwd expandedTarget) = false) :
    (openExecuteCore fsExists fsIsDir fsIsFile shellExecute notepadOpen cwd
        target expandedTarget verb).usedFallback = false ∧
    ((openExecuteCore fsExists fsIsDir fsIsFile shellExecute notepadOpen cwd
        target expandedTarget verb).result.success = true ↔
      32 < openShellCode fsExists fsIsDir shellExecute cwd expandedTarget verb) ∧
    (openShellCode fsExists fsIsDir shellExecute cwd expandedTarget verb = 2 →
      (openExecuteCore fsExists fsIsDir fsIsFile shellExecute notepadOpen cwd
          target expandedTarget verb).result
        = { success := false,
            message := "File \x27" ++ target ++ "\x27 does not exist",
            execution_time_ms := 0, output := none, error_code := some 2 }) := by
  simp only [openExecuteCore, h, Bool.false_and, Bool.false_eq_true, if_false]
  split_ifs with hc1 hc2
  · refine ⟨rfl, by simp [hc1], fun h2 => absurd h2 (by omega)⟩
  · have he2 : openShellCode fsExists fsIsDir shellExecute cwd expandedTarget verb = 2 :=
      eq_of_beq hc2
    refine ⟨rfl, by simp [hc1], fun _ => ?_⟩
    rw [he2]
  · refine ⟨rfl, by simp [hc1], fun h2 => absurd h2 (by simpa using hc2)⟩

/-- C6 (amended, witness): nonexistent target with shell status 2 yields
the does-not-exist failure and no fallback call. -/
theorem open_nonexistent_no_fallback_witness :
    (openExecuteCore (fun _ => false) (fun _ => false) (fun _ => false)
        (fun _ _ => 2) (fun _ => 99) none "x.txt" "x.txt".data
        none).usedFallback = false ∧
    (openExecuteCore (fun _ => false) (fun _ => false) (fun _ => false)
        (fun _ _ => 2) (fun _ => 99) none "x.txt" "x.txt".data none).result
      = { success := false, message := "File \x27x.txt\x27 does not exist",
          execution_time_ms := 0, output := none, error_code := some 2 } := by
  have h := open_nonexistent_no_fallback (fun _ => false) (fun _ => false)
    (fun _ => false) (fun _ _ => 2) (fun _ => 99) none "x.txt" "x.txt".data
    none rfl
  exact ⟨h.1, h.2.2 rfl⟩

/-- C7 (counterexample): with `A = "%"`, `D = "hello"` and `C` unset, the
input `%A%D%C%` contains the reference `%C%` to an unset variable, yet
the expansion finishes with `helloC%`, in which `%C%` no longer appears:
the earlier substitutions shifted the token boundaries and consumed its
opening `%`. -/
theorem expand_unset_token_cex :
    envC7 "C" = none ∧
    hasSub "%A%D%C%".data "%C%".data = true ∧
    expandLoop envC7 3 "%A%D%C%".data = some "helloC%".data ∧
    hasSub "helloC%".data "%C%".data = false := by
  exact ⟨rfl, by decide, by decide, by decide⟩

/-- C7 (amended): the expansion is the identity on every string holding
fewer than two `%` characters (no `%VAR%` token at all), and on every
string whose leftmost `%VAR%` token names an unset variable -- the whole
string, that token included, is returned verbatim; neither case is an
error.  (A later unset reference can still be destroyed by an earlier
substitution whose value holds `%`, as the counterexample shows.) -/
theorem expand_identity_cases (env : String → Option String) (s : List Char)
    (fuel : Nat) (hfuel : 1 ≤ fuel) :
    (s.count '%' < 2 → expandLoop env fuel s = some s) ∧
    (∀ start e name, findToken s = some (start, e, name) →
      env (String.mk name) = none → expandLoop env fuel s = some s) := by
  obtain ⟨m, rfl⟩ : ∃ m, fuel = m + 1 := ⟨fuel - 1, by omega⟩
  constructor
  · intro hc
    cases hft : findToken s with
    | none => simp [expandLoop, hft]
    | some tup =>
      obtain ⟨st, e, nm⟩ := tup
      have := findToken_count_ge s st e nm hft
      omega
  · intro st e nm hft he
    simp [expandLoop, hft, he]

/-- C7 (amended, witness): a token-free string is returned unchanged. -/
theorem expand_identity_cases_witness :
    expandLoop (fun _ => none) 1 "C:/plain path 100".data
      = some "C:/plain path 100".data :=
  (expand_identity_cases (fun _ => none) "C:/plain path 100".data 1
    (by omega)).1 (by decide)

/-- C8: dispatching a declared-but-unimplemented variant (SendKeys or
PowerShell) finds no executor whose capability predicate matches and
returns the `No executor found` error value, not an `ActionResult`. -/
theorem dispatch_unimplemented_no_executor (keys : String) (dm : Option Nat)
    (script : String) (wd ep : Option String) :
    findExecutor (ActionConfig.sendKeys keys dm)
      = Except.error "No executor found for action type" ∧
    findExecutor (ActionConfig.powerShellAction script wd ep)
      = Except.error "No executor found for action type" :=
  ⟨rfl, rfl⟩

/-- C9 (failing input): with the self-referential environment value
`A = "%A%"`, the expansion of `"%A%"` never terminates: the rewrite step
maps the string to itself, so every fuel bound is exhausted. -/
theorem expand_self_reference_diverges (fuel : Nat) :
    expandLoop envC9 fuel "%A%".data = none := by
  induction fuel with
  | zero => rfl
  | succ m ih =>
    have step : expandLoop envC9 (m + 1) "%A%".data
        = expandLoop envC9 m "%A%".data := rfl
    rw [step, ih]

/-- C10: when the leftmost `%VAR%` token of the string names an unset
variable, the loop halts at once and returns the entire string
unchanged; in particular every later reference, even to a set variable,
is left unexpanded. -/
theorem expand_leftmost_unset_halts (env : String → Option String)
    (s : List Char) (start e : Nat) (name : List Char) (fuel : Nat)
    (hf : findToken s = some (start, e, name))
    (henv : env (String.mk name) = none) (hfuel : 1 ≤ fuel) :
    expandLoop env fuel s = some s := by
  obtain ⟨m, rfl⟩ : ∃ m, fuel = m + 1 := ⟨fuel - 1, by omega⟩
  simp [expandLoop, hf, henv]

/-- C10 (witness): on `"%A%%B%"` with `A` unset and `B = "bee"`, the
output is the input unchanged -- the later `%B%` reference stays
unexpanded although `B` is set. -/
theorem expand_leftmost_unset_halts_witness :
    expandLoop envC10 7 "%A%%B%".data = some "%A%%B%".data ∧
    envC10 "B" = some "bee" :=
  ⟨expand_leftmost_unset_halts envC10 "%A%%B%".data 0 1 ['A'] 7
    (by decide) (by decide) (by omega), rfl⟩

end QDeck
